import Mathlib

/-!
Shallow embedding of the `harvaestus` core: the `Backlog` work queue
(`src/harvaestus/backlog.py`) and the `Crawler` per-key handling and error
policy (`src/harvaestus/crawler.py`), together with the exception taxonomy
(`src/harvaestus/errors.py`).

Keys are kept generic (`K` with decidable equality); concrete instances use
`Nat`. Python exceptions are modelled by the inductive `Exc`; fallible
operations return `Except Exc` values. The per-key step `_run_once` is
modelled as a pure function from the crawler's relevant state (backlog,
error counter) and the user function's outcome to a result record that also
collects the observable events of the step: records written to storage,
recovery-handler invocations, `re_add` calls and the exception (if any)
propagating out of the step. The `random.choice` call of the random
strategy is modelled by an extra index argument `i`: the chosen element is
`queue[i % len(queue)]`, which ranges over exactly the choices
`random.choice` can make.
-/

namespace Harvaestus

/-- Exceptions of the system, from `src/harvaestus/errors.py` plus the
built-in Python exceptions the crawler can raise or meet
(`NotImplementedError` from `Backlog.next` on an unknown strategy,
`IndexError` from `e.args[0]` on a message-less `AssertionError`,
`RuntimeError` from an unknown error policy, and `other` standing for any
caller-defined exception). `fixableError` carries its `error_key` and the
auxiliary keyword data; `assertionError` carries the argument tuple. -/
inductive Exc where
  | emptyBacklog : Exc
  | reAddLimitReached : Exc
  | notImplementedError : Exc
  | fixableError (error_key : String) (data : List Nat) : Exc
  | ignoreKey : Exc
  | assertionError (args : List String) : Exc
  | indexError : Exc
  | runtimeError : Exc
  | other (tag : Nat) : Exc
  deriving DecidableEq, Repr

/-- State of `Backlog` (`src/harvaestus/backlog.py`): the selection
`strategy` string and `re_add_limit` fixed at construction, the pending
`queue`, the dedup ledger `seen`, and the `re_adds` counter (a Python
`Counter`, i.e. a total map defaulting to 0). -/
structure Backlog (K : Type) [DecidableEq K] where
  strategy : String
  re_add_limit : Nat
  queue : List K
  seen : Finset K
  re_adds : K → Nat

variable {K : Type} [DecidableEq K]

/-- `Backlog.__init__`: empty queue, empty `seen`, all-zero `Counter`,
with the given `strategy` and `re_add_limit`. -/
def Backlog.init_with (strategy : String) (re_add_limit : Nat) : Backlog K :=
  { strategy := strategy, re_add_limit := re_add_limit, queue := [],
    seen := ∅, re_adds := fun _ => 0 }

/-- `Backlog()` with the default arguments `strategy="fifo"`,
`re_add_limit=2`. -/
def Backlog.init : Backlog K :=
  Backlog.init_with "fifo" 2

/-- `Backlog.add`: append `key` to the queue and insert it into `seen`
iff it is not in `seen` yet. -/
def Backlog.add (b : Backlog K) (key : K) : Backlog K :=
  if key ∈ b.seen then b
  else { b with queue := b.queue ++ [key], seen := insert key b.seen }

/-- `Backlog.add_multiple`: sequential `add` of each key. -/
def Backlog.add_multiple (b : Backlog K) (keys : List K) : Backlog K :=
  keys.foldl Backlog.add b

/-- `Backlog._next_fifo`: pop the head of the queue;
`EmptyBacklog` when empty. -/
def Backlog.next_fifo (b : Backlog K) : Except Exc (K × Backlog K) :=
  match b.queue with
  | [] => .error .emptyBacklog
  | k :: rest => .ok (k, { b with queue := rest })

/-- `Backlog._next_random`: `random.choice(self._queue)` returns one element
of the queue (modelled as the element at index `i % length`) and leaves the
queue unchanged; on an empty queue the `IndexError` is turned into
`EmptyBacklog`. -/
def Backlog.next_random (b : Backlog K) (i : Nat) : Except Exc (K × Backlog K) :=
  if h : b.queue.length = 0 then .error .emptyBacklog
  else .ok (b.queue.get ⟨i % b.queue.length, Nat.mod_lt i (Nat.pos_of_ne_zero h)⟩, b)

/-- `Backlog.next`: dispatch on the strategy string; any other strategy
raises `NotImplementedError`. -/
def Backlog.next (b : Backlog K) (i : Nat) : Except Exc (K × Backlog K) :=
  if b.strategy = "fifo" then b.next_fifo
  else if b.strategy = "random" then b.next_random i
  else .error .notImplementedError

/-- `Backlog.is_empty`. -/
def Backlog.is_empty (b : Backlog K) : Bool :=
  b.queue.length = 0

/-- `Backlog.re_add`: raise `ReAddLimitReached` when the stored count has
already reached the limit (leaving the counter untouched); otherwise append
the key to the queue and increment its counter. -/
def Backlog.re_add (b : Backlog K) (key : K) : Except Exc (Backlog K) :=
  if b.re_add_limit ≤ b.re_adds key then .error .reAddLimitReached
  else .ok { b with
      queue := b.queue ++ [key],
      re_adds := fun x => if x = key then b.re_adds key + 1 else b.re_adds x }

/-- `Backlog.__len__`: size of the pending queue. -/
def Backlog.len (b : Backlog K) : Nat :=
  b.queue.length

/-- `Backlog.total`: size of `seen`. -/
def Backlog.total (b : Backlog K) : Nat :=
  b.seen.card

/-- `Backlog.persist`: `pickle.dump(self, fp)` — the sink afterwards holds
the complete Backlog value. The serialized format is opaque; only the
round-trip matters, so the file content is modelled as the Backlog itself. -/
def Backlog.persist (b : Backlog K) : Option (Backlog K) :=
  some b

/-- `Backlog.from_file`: unpickle the stored Backlog when the file exists;
on `FileNotFoundError` return `cls()` (a fresh default Backlog) — note the
source does this whatever `not_exists_ok` is. -/
def Backlog.from_file (file : Option (Backlog K)) (not_exists_ok : Bool) : Backlog K :=
  match file with
  | some b => b
  | none => Backlog.init

/-- The state of the Backlog object after a `re_add(key)` call, whether it
succeeded or raised: in the source, `raise ReAddLimitReached` happens before
any mutation, so on failure the object is unchanged. -/
def Backlog.re_add_state (b : Backlog K) (key : K) : Backlog K :=
  match b.re_add key with
  | .ok b1 => b1
  | .error _ => b

/-- One mutating Backlog operation, as issued by the crawler or by user
code holding the shared Backlog: `add`, `add_multiple`, `next` (with the
random-choice index) or `re_add`. -/
inductive Op (K : Type) where
  | add (k : K) : Op K
  | addMultiple (ks : List K) : Op K
  | next (i : Nat) : Op K
  | reAdd (k : K) : Op K

/-- Apply one operation to the Backlog; a raising operation (`next` on an
empty queue, `re_add` over the limit) leaves the state unchanged, as the
source raises before mutating. -/
def Backlog.applyOp (b : Backlog K) : Op K → Backlog K
  | .add k => b.add k
  | .addMultiple ks => b.add_multiple ks
  | .next i =>
      match b.next i with
      | .ok p => p.2
      | .error _ => b
  | .reAdd k =>
      match b.re_add k with
      | .ok b1 => b1
      | .error _ => b

/-- Apply a sequence of operations in order. -/
def Backlog.applyOps (b : Backlog K) (ops : List (Op K)) : Backlog K :=
  ops.foldl Backlog.applyOp b

/-- A value returned by the user function, after `_run_once` has
materialized a generator into a list: either a single value or a
list of values (values modelled as `Nat`). -/
inductive Value where
  | single (n : Nat) : Value
  | multi (ns : List Nat) : Value
  deriving DecidableEq, Repr

/-- Outcome of calling the user function on a key: a returned value or a
raised exception. -/
inductive FnOutcome where
  | ret (v : Value) : FnOutcome
  | raise (e : Exc) : FnOutcome
  deriving DecidableEq, Repr

/-- `Crawler.store_if_necessary`: the records written to the storage sink
for `key` — none when no storage is configured; one per element when the
value is a list; one record otherwise. -/
def store_if_necessary (storage : Bool) (key : K) (value : Value) : List (K × Nat) :=
  if storage then
    match value with
    | .multi ns => ns.map fun n => (key, n)
    | .single n => [(key, n)]
  else []

/-- `Crawler.handle_exception`: resolve an unrecoverable failure by the
error policy. Returns the exception re-raised out of the handler (if any)
and the new `error_counter`. `"fail"` always re-raises; `"ignore"` swallows;
`"fail3"` increments the counter and re-raises once it reaches 3; any other
policy raises `RuntimeError`. -/
def handle_exception (policy : String) (counter : Nat) (e : Exc) :
    Option Exc × Nat :=
  if policy = "fail" then (some e, counter)
  else if policy = "ignore" then (none, counter)
  else if policy = "fail3" then
    if 3 ≤ counter + 1 then (some e, counter + 1) else (none, counter + 1)
  else (some .runtimeError, counter)

/-- Result of one per-key handling step (`_run_once` or one of its error
handlers): the new backlog and error counter, the records written to
storage, the recovery-handler invocations (registered key paired with the
error the handler received), the number of `Backlog.re_add` calls made, and
the exception propagating out of the step, if any. -/
structure StepResult (K : Type) [DecidableEq K] where
  backlog : Backlog K
  counter : Nat
  stored : List (K × Nat)
  handlerCalls : List (String × Exc)
  reAddCalls : Nat
  raised : Option Exc

/-- `Crawler.handle_fixable_error`: look up a handler registered under the
error key (`handlers` is the set of registered keys; the handler's
invocation is recorded in `handlerCalls`). On a hit, invoke the handler
with the error and call `Backlog.re_add(key)` — an exception from `re_add`
propagates. On a miss (`KeyError`), delegate to `handle_exception`. -/
def handle_fixable_error (handlers : List String) (policy : String)
    (b : Backlog K) (counter : Nat) (error_key : String) (data : List Nat)
    (key : K) : StepResult K :=
  if error_key ∈ handlers then
    match b.re_add key with
    | .ok b1 =>
        { backlog := b1, counter := counter, stored := [],
          handlerCalls := [(error_key, .fixableError error_key data)],
          reAddCalls := 1, raised := none }
    | .error e =>
        { backlog := b, counter := counter, stored := [],
          handlerCalls := [(error_key, .fixableError error_key data)],
          reAddCalls := 1, raised := some e }
  else
    let (r, c) := handle_exception policy counter (.fixableError error_key data)
    { backlog := b, counter := c, stored := [], handlerCalls := [],
      reAddCalls := 0, raised := r }

/-- `Crawler._run_once`: dequeue a key with `Backlog.next()` (an
`EmptyBacklog` there propagates, the `try` only guards the user-function
call), invoke the user function `fn`, and route the outcome:
a returned value resets the error counter to 0 and is forwarded to storage;
a `FixableError` goes to `handle_fixable_error`; an `AssertionError` is
rewrapped as `FixableError(e.args[0])` — when the argument tuple is empty,
`e.args[0]` itself raises `IndexError`, which propagates; any other
exception goes to `handle_exception`. `i` feeds the random choice of
`Backlog.next`. -/
def run_once (handlers : List String) (policy : String) (storage : Bool)
    (fn : K → FnOutcome) (b : Backlog K) (counter : Nat) (i : Nat) :
    StepResult K :=
  match b.next i with
  | .error e =>
      { backlog := b, counter := counter, stored := [], handlerCalls := [],
        reAddCalls := 0, raised := some e }
  | .ok (key, b1) =>
      match fn key with
      | .ret v =>
          { backlog := b1, counter := 0,
            stored := store_if_necessary storage key v,
            handlerCalls := [], reAddCalls := 0, raised := none }
      | .raise (.fixableError ek d) =>
          handle_fixable_error handlers policy b1 counter ek d key
      | .raise (.assertionError []) =>
          { backlog := b1, counter := counter, stored := [],
            handlerCalls := [], reAddCalls := 0, raised := some .indexError }
      | .raise (.assertionError (a :: _)) =>
          handle_fixable_error handlers policy b1 counter a [] key
      | .raise e =>
          let (r, c) := handle_exception policy counter e
          { backlog := b1, counter := c, stored := [], handlerCalls := [],
            reAddCalls := 0, raised := r }

/-! ## Concrete scenario data -/

/-- A Backlog whose stored `re_adds` count for key 1 already equals the
limit 2 (key 1 was added, consumed, and re-added twice). -/
def atLimitB : Backlog Nat :=
  { strategy := "fifo", re_add_limit := 2, queue := [], seen := {1},
    re_adds := fun x => if x = 1 then 2 else 0 }

/-- Like `atLimitB` but with key 1 still pending. -/
def atLimitPendingB : Backlog Nat :=
  { strategy := "fifo", re_add_limit := 2, queue := [1], seen := {1},
    re_adds := fun x => if x = 1 then 2 else 0 }

/-- A Backlog with strategy `"random"` and the single pending key 5. -/
def randomB1 : Backlog Nat :=
  { strategy := "random", re_add_limit := 2, queue := [5], seen := {5},
    re_adds := fun _ => 0 }

/-- Keys 10, 20, 30 added in that order to a fresh FIFO Backlog. -/
def abcB : Backlog Nat :=
  ((Backlog.init.add 10).add 20).add 30

/-- Fresh FIFO Backlog holding keys 1, 2, 3. -/
def bl3 : Backlog Nat := Backlog.init.add_multiple [1, 2, 3]

/-- Fresh FIFO Backlog holding keys 1, 2, 3, 4. -/
def bl4 : Backlog Nat := Backlog.init.add_multiple [1, 2, 3, 4]

/-- Fresh FIFO Backlog holding only key 2. -/
def succB : Backlog Nat := Backlog.init.add 2

/-- The user function that raises `IgnoreKey` for every key. -/
def fnIgnore : Nat → FnOutcome := fun _ => .raise .ignoreKey

/-- The user function that raises `FixableError("x")` for every key. -/
def fnFixX : Nat → FnOutcome := fun _ => .raise (.fixableError "x" [])

/-- The user function that raises a generic unrecoverable exception for
every key. -/
def fnFail : Nat → FnOutcome := fun _ => .raise (.other 7)

/-- Fails with a generic unrecoverable exception on every key except
key 2, which succeeds. -/
def fnMix : Nat → FnOutcome :=
  fun k => if k = 2 then .ret (.single 0) else .raise (.other 7)

/-- The user function whose assertion fails without a message (empty
argument tuple). -/
def fnAssertBare : Nat → FnOutcome := fun _ => .raise (.assertionError [])

/-- The user function whose assertion fails with the message `"test"`. -/
def fnAssertMsg : Nat → FnOutcome := fun _ => .raise (.assertionError ["test"])

/-! ## Helper lemmas -/

theorem Backlog.add_of_mem_seen (b : Backlog K) (k : K) (h : k ∈ b.seen) :
    b.add k = b := by
  simp [Backlog.add, h]

theorem Backlog.mem_seen_add (b : Backlog K) (k : K) : k ∈ (b.add k).seen := by
  by_cases h : k ∈ b.seen <;> simp [Backlog.add, h]

/-! ## Claims about the Backlog -/

/-- C7: for a key `k` not yet in `seen`, `add(k)` followed by any number of
further `add(k)` calls raises `total` and `len` by exactly one; `add`
appends to `pending` and inserts into `seen` iff the key is unseen, is
idempotent, and — being a total function — has no error conditions. -/
theorem C7_add_dedup (b : Backlog Nat) (k : Nat) (n : Nat) (h : k ∉ b.seen) :
    ((fun s : Backlog Nat => s.add k)^[n] (b.add k)).total = b.total + 1 ∧
    ((fun s : Backlog Nat => s.add k)^[n] (b.add k)).len = b.len + 1 ∧
    (b.add k).queue = b.queue ++ [k] ∧
    (b.add k).seen = insert k b.seen ∧
    (∀ c : Backlog Nat, k ∈ c.seen → c.add k = c) ∧
    (b.add k).add k = b.add k := by
  have hfix : (fun s : Backlog Nat => s.add k) (b.add k) = b.add k :=
    Backlog.add_of_mem_seen _ _ (Backlog.mem_seen_add b k)
  have hiter : (fun s : Backlog Nat => s.add k)^[n] (b.add k) = b.add k :=
    @Function.iterate_fixed (Backlog Nat) (fun s : Backlog Nat => s.add k)
      (b.add k) hfix n
  have hq : (b.add k).queue = b.queue ++ [k] := by simp [Backlog.add, h]
  have hs : (b.add k).seen = insert k b.seen := by simp [Backlog.add, h]
  refine ⟨?_, ?_, hq, hs, fun c hc => Backlog.add_of_mem_seen c k hc, hfix⟩
  · rw [hiter]
    simp [Backlog.total, hs, Finset.card_insert_of_not_mem h]
  · rw [hiter]
    simp [Backlog.len, hq]

/-- Witness for C7 at the fresh Backlog, key 1, three extra `add` calls. -/
theorem C7_witness :
    (1 : Nat) ∉ (Backlog.init : Backlog Nat).seen ∧
    ((fun s : Backlog Nat => s.add 1)^[3] ((Backlog.init : Backlog Nat).add 1)).total
      = (Backlog.init : Backlog Nat).total + 1 := by
  exact ⟨by decide, (C7_add_dedup Backlog.init 1 3 (by decide)).1⟩

/-- C9: persisting a Backlog and restoring it reconstructs every field
exactly — hence identical `next()` sequencing and `total`/`len` values —
and restoring from a missing file with `not_exists_ok=True` yields the
fresh default Backlog. -/
theorem C9_snapshot_round_trip (b : Backlog Nat) (flag : Bool) :
    Backlog.from_file b.persist flag = b ∧
    (Backlog.from_file b.persist flag).strategy = b.strategy ∧
    (Backlog.from_file b.persist flag).re_add_limit = b.re_add_limit ∧
    (Backlog.from_file b.persist flag).queue = b.queue ∧
    (Backlog.from_file b.persist flag).seen = b.seen ∧
    (Backlog.from_file b.persist flag).re_adds = b.re_adds ∧
    (∀ i, (Backlog.from_file b.persist flag).next i = b.next i) ∧
    (Backlog.from_file b.persist flag).total = b.total ∧
    (Backlog.from_file b.persist flag).len = b.len ∧
    Backlog.from_file (none : Option (Backlog Nat)) true = Backlog.init := by
  exact ⟨rfl, rfl, rfl, rfl, rfl, rfl, fun i => rfl, rfl, rfl, rfl⟩

/-- C4 counterexample: with the count for key 1 at the limit, `re_add 1`
fails with `ReAddLimitReached` but the stored count stays 2 — the increment
is NOT recorded, contradicting the claim that after a failed `reAdd` the
count is one higher than before the call. -/
theorem C4_counterexample :
    atLimitB.re_add 1 = .error .reAddLimitReached ∧
    (atLimitB.re_add_state 1).re_adds 1 = 2 ∧
    ¬((atLimitB.re_add_state 1).re_adds 1 = atLimitB.re_adds 1 + 1) := by
  exact ⟨rfl, rfl, by decide⟩

/-- C4 amended: `reAdd(k)` fails with `ReAddLimitReached` exactly when the
pre-call count has already reached `reAddLimit` (equivalently, when the
post-increment count would exceed it) and in that case the stored count and
the queue are left unchanged; otherwise it records the increment and
appends `k` to `pending`. -/
theorem C4_re_add_count (b : Backlog Nat) (k : Nat) :
    (b.re_add k = .error .reAddLimitReached ↔ b.re_add_limit ≤ b.re_adds k) ∧
    ((∃ b1, b.re_add k = .ok b1) ↔ b.re_adds k + 1 ≤ b.re_add_limit) ∧
    (b.re_add_state k).re_adds k =
      (if b.re_add_limit ≤ b.re_adds k then b.re_adds k else b.re_adds k + 1) ∧
    (b.re_add_state k).queue =
      (if b.re_add_limit ≤ b.re_adds k then b.queue else b.queue ++ [k]) := by
  by_cases h : b.re_add_limit ≤ b.re_adds k
  · refine ⟨⟨fun _ => h, fun _ => by simp [Backlog.re_add, h]⟩,
      ⟨fun he => ?_, fun hle => absurd hle (by omega)⟩, ?_, ?_⟩
    · obtain ⟨b1, hb1⟩ := he
      simp [Backlog.re_add, h] at hb1
    · simp [Backlog.re_add_state, Backlog.re_add, h]
    · simp [Backlog.re_add_state, Backlog.re_add, h]
  · refine ⟨⟨fun he => ?_, fun hle => absurd hle h⟩,
      ⟨fun _ => by omega, fun _ => ?_⟩, ?_, ?_⟩
    · simp [Backlog.re_add, h] at he
    · exact ⟨b.re_add_state k, by simp [Backlog.re_add_state, Backlog.re_add, h]⟩
    · simp [Backlog.re_add_state, Backlog.re_add, h]
    · simp [Backlog.re_add_state, Backlog.re_add, h]

/-- C1: actual behavior of `next()`. FIFO pops keys in arrival order,
removing each; both strategies raise `EmptyBacklog` on an empty queue; but
under RANDOM, for every possible random choice, `next()` returns the chosen
key and leaves the Backlog — hence `pending` and `len` — unchanged: the
returned key is NOT removed, so `len` does not decrease. -/
theorem C1_next_behavior :
    (∀ i : Nat, randomB1.next i = .ok (5, randomB1)) ∧
    randomB1.len = 1 ∧
    (∀ i : Nat, (Backlog.init_with "fifo" 2 : Backlog Nat).next i = .error .emptyBacklog) ∧
    (∀ i : Nat, (Backlog.init_with "random" 2 : Backlog Nat).next i = .error .emptyBacklog) ∧
    (∃ b1 b2 b3 : Backlog Nat,
      abcB.next 0 = .ok (10, b1) ∧ b1.next 0 = .ok (20, b2) ∧
      b2.next 0 = .ok (30, b3) ∧ b3.len = 0) := by
  refine ⟨?_, rfl, fun i => rfl, fun i => rfl, ?_⟩
  · intro i
    simp [Backlog.next, Backlog.next_random, randomB1, Nat.mod_one]
  · exact ⟨_, _, _, rfl, rfl, rfl, rfl⟩

theorem Backlog.add_re_adds (b : Backlog K) (k : K) :
    (b.add k).re_adds = b.re_adds := by
  by_cases h : k ∈ b.seen <;> simp [Backlog.add, h]

theorem Backlog.add_re_add_limit (b : Backlog K) (k : K) :
    (b.add k).re_add_limit = b.re_add_limit := by
  by_cases h : k ∈ b.seen <;> simp [Backlog.add, h]

theorem Backlog.add_multiple_re_adds (b : Backlog K) (ks : List K) :
    (b.add_multiple ks).re_adds = b.re_adds ∧
    (b.add_multiple ks).re_add_limit = b.re_add_limit := by
  induction ks generalizing b with
  | nil => exact ⟨rfl, rfl⟩
  | cons k ks ih =>
      have h1 : b.add_multiple (k :: ks) = (b.add k).add_multiple ks := rfl
      rw [h1, (ih (b.add k)).1, (ih (b.add k)).2,
        Backlog.add_re_adds, Backlog.add_re_add_limit]
      exact ⟨rfl, rfl⟩

theorem Backlog.next_ok_re_adds (b : Backlog K) (i : Nat) (p : K × Backlog K)
    (h : b.next i = .ok p) :
    p.2.re_adds = b.re_adds ∧ p.2.re_add_limit = b.re_add_limit := by
  unfold Backlog.next at h
  by_cases h1 : b.strategy = "fifo"
  · rw [if_pos h1] at h
    unfold Backlog.next_fifo at h
    cases hq : b.queue with
    | nil =>
        rw [hq] at h
        simp at h
    | cons a rest =>
        rw [hq] at h
        simp only [Except.ok.injEq] at h
        rw [← h]
        exact ⟨rfl, rfl⟩
  · rw [if_neg h1] at h
    by_cases h2 : b.strategy = "random"
    · rw [if_pos h2] at h
      unfold Backlog.next_random at h
      split at h
      · simp at h
      · simp only [Except.ok.injEq] at h
        rw [← h]
        exact ⟨rfl, rfl⟩
    · rw [if_neg h2] at h
      simp at h

theorem Backlog.re_add_ok_re_adds (b : Backlog K) (k : K) (b1 : Backlog K)
    (hinv : ∀ x, b.re_adds x ≤ b.re_add_limit) (h : b.re_add k = .ok b1) :
    (∀ x, b1.re_adds x ≤ b.re_add_limit) ∧ b1.re_add_limit = b.re_add_limit := by
  unfold Backlog.re_add at h
  by_cases hle : b.re_add_limit ≤ b.re_adds k
  · rw [if_pos hle] at h
    simp at h
  · rw [if_neg hle] at h
    simp only [Except.ok.injEq] at h
    rw [← h]
    refine ⟨fun x => ?_, rfl⟩
    show (if x = k then b.re_adds k + 1 else b.re_adds x) ≤ b.re_add_limit
    by_cases hx : x = k
    · rw [if_pos hx]
      omega
    · rw [if_neg hx]
      exact hinv x

theorem Backlog.applyOp_inv (b : Backlog K) (op : Op K)
    (h : ∀ x, b.re_adds x ≤ b.re_add_limit) :
    (b.applyOp op).re_add_limit = b.re_add_limit ∧
    (∀ x, (b.applyOp op).re_adds x ≤ b.re_add_limit) := by
  cases op with
  | add k =>
      refine ⟨Backlog.add_re_add_limit b k, fun x => ?_⟩
      have he : (b.applyOp (Op.add k)).re_adds = b.re_adds :=
        Backlog.add_re_adds b k
      rw [he]
      exact h x
  | addMultiple ks =>
      have he : b.applyOp (Op.addMultiple ks) = b.add_multiple ks := rfl
      rw [he]
      refine ⟨(Backlog.add_multiple_re_adds b ks).2, fun x => ?_⟩
      rw [(Backlog.add_multiple_re_adds b ks).1]
      exact h x
  | next i =>
      cases hn : b.next i with
      | error e =>
          have he : b.applyOp (Op.next i) = b := by
            show (match b.next i with
              | Except.ok p => p.2
              | Except.error _ => b) = b
            rw [hn]
          rw [he]
          exact ⟨rfl, h⟩
      | ok p =>
          have he : b.applyOp (Op.next i) = p.2 := by
            show (match b.next i with
              | Except.ok p => p.2
              | Except.error _ => b) = p.2
            rw [hn]
          obtain ⟨hr, hl⟩ := Backlog.next_ok_re_adds b i p hn
          rw [he]
          refine ⟨hl, fun x => ?_⟩
          rw [hr]
          exact h x
  | reAdd k =>
      cases hn : b.re_add k with
      | error e =>
          have he : b.applyOp (Op.reAdd k) = b := by
            show (match b.re_add k with
              | Except.ok b2 => b2
              | Except.error _ => b) = b
            rw [hn]
          rw [he]
          exact ⟨rfl, h⟩
      | ok b1 =>
          have he : b.applyOp (Op.reAdd k) = b1 := by
            show (match b.re_add k with
              | Except.ok b2 => b2
              | Except.error _ => b) = b1
            rw [hn]
          obtain ⟨hr, hl⟩ := Backlog.re_add_ok_re_adds b k b1 h hn
          rw [he]
          exact ⟨hl, hr⟩

theorem Backlog.applyOps_inv (ops : List (Op K)) (b : Backlog K)
    (h : ∀ x, b.re_adds x ≤ b.re_add_limit) :
    (b.applyOps ops).re_add_limit = b.re_add_limit ∧
    (∀ x, (b.applyOps ops).re_adds x ≤ b.re_add_limit) := by
  induction ops generalizing b with
  | nil => exact ⟨rfl, h⟩
  | cons op ops ih =>
      have h1 := Backlog.applyOp_inv b op h
      have hinv : ∀ x, (b.applyOp op).re_adds x ≤ (b.applyOp op).re_add_limit := by
        intro x
        rw [h1.1]
        exact h1.2 x
      have h2 := ih (b.applyOp op) hinv
      have hstep : b.applyOps (op :: ops) = (b.applyOp op).applyOps ops := rfl
      rw [hstep, h2.1, h1.1]
      refine ⟨rfl, fun x => ?_⟩
      have h3 := h2.2 x
      rw [h1.1] at h3
      exact h3

/-- C8: in every Backlog state reachable from a fresh Backlog (any strategy
and limit) by a sequence of `add`/`add_multiple`/`next`/`re_add`
operations, no key's `re_adds` count exceeds the limit; `re_add` succeeds
precisely while the budget is not exhausted (independent of `seen`
membership); with limit 2, `add(1)` then `re_add(1)` twice succeeds and a
third `re_add(1)` fails with `ReAddLimitReached`; and `re_add(1)` succeeds
even after key 1 was fully consumed via `next()`. -/
theorem C8_re_add_budget :
    (∀ (s : String) (l : Nat) (ops : List (Op Nat)) (k : Nat),
      ((Backlog.init_with s l : Backlog Nat).applyOps ops).re_adds k ≤ l) ∧
    (∀ (b : Backlog Nat) (k : Nat),
      (∃ b1, b.re_add k = .ok b1) ↔ b.re_adds k < b.re_add_limit) ∧
    (∃ b1 b2 : Backlog Nat,
      ((Backlog.init : Backlog Nat).add 1).re_add 1 = .ok b1 ∧
      b1.re_add 1 = .ok b2 ∧
      b2.re_add 1 = .error .reAddLimitReached) ∧
    (∃ b1 b2 : Backlog Nat,
      ((Backlog.init : Backlog Nat).add 1).next 0 = .ok (1, b1) ∧
      b1.is_empty = true ∧ (1 : Nat) ∈ b1.seen ∧
      b1.re_add 1 = .ok b2 ∧ b2.queue = [1]) := by
  refine ⟨fun s l ops k => ?_, fun b k => ?_, ?_, ?_⟩
  · exact (Backlog.applyOps_inv ops (Backlog.init_with s l)
      (fun x => Nat.zero_le l)).2 k
  · constructor
    · rintro ⟨b1, hb1⟩
      by_cases hle : b.re_add_limit ≤ b.re_adds k
      · simp [Backlog.re_add, hle] at hb1
      · omega
    · intro hlt
      refine ⟨b.re_add_state k, ?_⟩
      have hle : ¬ b.re_add_limit ≤ b.re_adds k := by omega
      simp [Backlog.re_add_state, Backlog.re_add, hle]
  · exact ⟨_, _, rfl, rfl, rfl⟩
  · exact ⟨_, _, rfl, rfl, by decide, rfl, rfl⟩

/-! ## Claims about the Crawler per-key step -/

/-- C2: actual behavior on `IgnoreKey`. `_run_once` has no dedicated
`IgnoreKey` clause: the exception falls into the generic `except Exception`
arm and IS handed to the error policy — under the default `"fail"` policy
it is re-raised out of the per-key step, and under `"fail3"` it increments
the consecutive-failure counter; no record is written in any case. This
contradicts the claim and the repo's own test
`test_ignore_key_error_ignores_key`, which runs under the default `"fail"`
policy and expects the run to finish. -/
theorem C2_ignore_key_engages_policy :
    (run_once [] "fail" true fnIgnore ((Backlog.init : Backlog Nat).add 1) 0 0).raised
      = some .ignoreKey ∧
    (run_once [] "fail3" true fnIgnore ((Backlog.init : Backlog Nat).add 1) 0 0).counter
      = 1 ∧
    (run_once [] "fail3" true fnIgnore ((Backlog.init : Backlog Nat).add 1) 0 0).raised
      = none ∧
    (run_once [] "ignore" true fnIgnore ((Backlog.init : Backlog Nat).add 1) 0 0).stored
      = [] ∧
    (run_once [] "ignore" true fnIgnore ((Backlog.init : Backlog Nat).add 1) 0 0).raised
      = none := by
  exact ⟨rfl, rfl, rfl, rfl, rfl⟩

/-- C3 counterexample: with a handler registered under `"x"`, the `IGNORE`
policy, and key 1's re-add budget exhausted, the per-key step ends with
`ReAddLimitReached` propagating out — the run does not continue under
`IGNORE`, contrary to the claim; the error policy never sees the failure. -/
theorem C3_counterexample :
    (run_once ["x"] "ignore" false fnFixX atLimitPendingB 0 0).raised
      = some .reAddLimitReached ∧
    (run_once ["x"] "ignore" false fnFixX atLimitPendingB 0 0).counter = 0 := by
  exact ⟨rfl, rfl⟩

/-- C3 amended: when the recoverable path's `reAdd` raises
`ReAddLimitReached`, the exception propagates directly out of the per-key
step under EVERY policy: the error policy is never engaged (the failure
counter is unchanged), although the handler was already invoked once. -/
theorem C3_re_add_limit_propagates (handlers : List String) (policy : String)
    (storage : Bool) (fn : Nat → FnOutcome) (b b1 : Backlog Nat)
    (counter i k : Nat) (ek : String) (d : List Nat)
    (h1 : b.next i = .ok (k, b1))
    (h2 : fn k = .raise (.fixableError ek d))
    (h3 : ek ∈ handlers)
    (h4 : b1.re_add_limit ≤ b1.re_adds k) :
    (run_once handlers policy storage fn b counter i).raised
      = some .reAddLimitReached ∧
    (run_once handlers policy storage fn b counter i).counter = counter ∧
    (run_once handlers policy storage fn b counter i).handlerCalls
      = [(ek, .fixableError ek d)] := by
  have key : run_once handlers policy storage fn b counter i
      = handle_fixable_error handlers policy b1 counter ek d k := by
    simp only [run_once, h1, h2]
  have hr : b1.re_add k = .error .reAddLimitReached := by
    unfold Backlog.re_add
    rw [if_pos h4]
  rw [key]
  unfold handle_fixable_error
  rw [if_pos h3, hr]
  exact ⟨rfl, rfl, rfl⟩

/-- Witness for C3 amended: `"fail"` policy, counter 5, budget exhausted —
the step raises `ReAddLimitReached` and the counter stays 5. -/
theorem C3_witness :
    (run_once ["x"] "fail" false fnFixX atLimitPendingB 5 0).raised
      = some .reAddLimitReached ∧
    (run_once ["x"] "fail" false fnFixX atLimitPendingB 5 0).counter = 5 := by
  have h := C3_re_add_limit_propagates ["x"] "fail" false fnFixX atLimitPendingB
    { atLimitPendingB with queue := [] } 5 0 1 "x" [] rfl rfl (by decide) (by decide)
  exact ⟨h.1, h.2.1⟩

/-- C5: the error policy. `"fail"` always re-raises with the counter
untouched; `"ignore"` always swallows; `"fail3"` increments the counter and
re-raises exactly when the incremented counter reaches 3; any successful
key processing resets the counter to 0. Consequently three consecutive
failures under `"fail3"` raise on the third, the same three keys under
`"ignore"` all pass, and a success between failures keeps two subsequent
failures from aborting. -/
theorem C5_error_policy :
    (∀ (c : Nat) (e : Exc), handle_exception "fail" c e = (some e, c)) ∧
    (∀ (c : Nat) (e : Exc), handle_exception "ignore" c e = (none, c)) ∧
    (∀ (c : Nat) (e : Exc), c + 1 < 3 →
      handle_exception "fail3" c e = (none, c + 1)) ∧
    (∀ (c : Nat) (e : Exc), 3 ≤ c + 1 →
      handle_exception "fail3" c e = (some e, c + 1)) ∧
    (∀ (handlers : List String) (policy : String) (storage : Bool)
      (fn : Nat → FnOutcome) (b b1 : Backlog Nat) (counter i k : Nat)
      (v : Value), b.next i = .ok (k, b1) → fn k = .ret v →
      (run_once handlers policy storage fn b counter i).counter = 0) ∧
    (let s1 := run_once [] "fail3" false fnFail bl3 0 0
     let s2 := run_once [] "fail3" false fnFail s1.backlog s1.counter 0
     let s3 := run_once [] "fail3" false fnFail s2.backlog s2.counter 0
     s1.raised = none ∧ s1.counter = 1 ∧ s2.raised = none ∧ s2.counter = 2 ∧
     s3.raised = some (.other 7) ∧ s3.counter = 3) ∧
    (let t1 := run_once [] "ignore" false fnFail bl3 0 0
     let t2 := run_once [] "ignore" false fnFail t1.backlog t1.counter 0
     let t3 := run_once [] "ignore" false fnFail t2.backlog t2.counter 0
     t1.raised = none ∧ t2.raised = none ∧ t3.raised = none) ∧
    (let u1 := run_once [] "fail3" false fnMix bl4 0 0
     let u2 := run_once [] "fail3" false fnMix u1.backlog u1.counter 0
     let u3 := run_once [] "fail3" false fnMix u2.backlog u2.counter 0
     let u4 := run_once [] "fail3" false fnMix u3.backlog u3.counter 0
     u1.counter = 1 ∧ u2.counter = 0 ∧ u3.counter = 1 ∧ u4.counter = 2 ∧
     u1.raised = none ∧ u2.raised = none ∧ u3.raised = none ∧
     u4.raised = none) := by
  refine ⟨fun c e => rfl, fun c e => rfl, ?_, ?_, ?_, ?_, ?_, ?_⟩
  · intro c e h
    unfold handle_exception
    rw [if_neg (by decide), if_neg (by decide), if_pos rfl, if_neg (by omega)]
  · intro c e h
    unfold handle_exception
    rw [if_neg (by decide), if_neg (by decide), if_pos rfl, if_pos (by omega)]
  · intro handlers policy storage fn b b1 counter i k v h1 h2
    simp only [run_once, h1, h2]
  · exact ⟨rfl, rfl, rfl, rfl, rfl, rfl⟩
  · exact ⟨rfl, rfl, rfl⟩
  · exact ⟨rfl, rfl, rfl, rfl, rfl, rfl, rfl, rfl⟩

/-- Witness for C5: concrete counter values for the `"fail3"` branches and
a concrete successful step resetting the counter from 5 to 0. -/
theorem C5_witness :
    handle_exception "fail3" 0 (.other 7) = (none, 1) ∧
    handle_exception "fail3" 2 (.other 7) = (some (.other 7), 3) ∧
    (run_once [] "fail" false fnMix succB 5 0).counter = 0 := by
  refine ⟨C5_error_policy.2.2.1 0 (.other 7) (by omega),
    C5_error_policy.2.2.2.1 2 (.other 7) (by omega),
    C5_error_policy.2.2.2.2.1 [] "fail" false fnMix succB
      { succB with queue := [] } 5 0 2 (.single 0) rfl rfl⟩

/-- C6: a key whose processing raises `FixableError(ek, d)`: with a handler
registered under `ek`, the handler is invoked exactly once with the error
and `re_add` is called exactly once (appending the key to `pending` when
the budget allows, with nothing raised); with no handler registered, no
handler runs, no `re_add` happens, and the error is handed to the error
policy exactly as any unrecoverable failure. -/
theorem C6_fixable_error_routing (handlers : List String) (policy : String)
    (storage : Bool) (fn : Nat → FnOutcome) (b b1 : Backlog Nat)
    (counter i k : Nat) (ek : String) (d : List Nat)
    (h1 : b.next i = .ok (k, b1))
    (h2 : fn k = .raise (.fixableError ek d)) :
    (ek ∈ handlers →
      (run_once handlers policy storage fn b counter i).handlerCalls
        = [(ek, .fixableError ek d)] ∧
      (run_once handlers policy storage fn b counter i).reAddCalls = 1 ∧
      (b1.re_adds k < b1.re_add_limit →
        (run_once handlers policy storage fn b counter i).backlog.queue
          = b1.queue ++ [k] ∧
        (run_once handlers policy storage fn b counter i).raised = none)) ∧
    (ek ∉ handlers →
      (run_once handlers policy storage fn b counter i).handlerCalls = [] ∧
      (run_once handlers policy storage fn b counter i).reAddCalls = 0 ∧
      (run_once handlers policy storage fn b counter i).raised
        = (handle_exception policy counter (.fixableError ek d)).1 ∧
      (run_once handlers policy storage fn b counter i).counter
        = (handle_exception policy counter (.fixableError ek d)).2) := by
  have key : run_once handlers policy storage fn b counter i
      = handle_fixable_error handlers policy b1 counter ek d k := by
    simp only [run_once, h1, h2]
  rw [key]
  constructor
  · intro h3
    unfold handle_fixable_error
    rw [if_pos h3]
    cases hr : b1.re_add k with
    | ok b2 =>
        refine ⟨rfl, rfl, fun hb => ⟨?_, rfl⟩⟩
        unfold Backlog.re_add at hr
        rw [if_neg (by omega)] at hr
        simp only [Except.ok.injEq] at hr
        rw [← hr]
    | error e =>
        refine ⟨rfl, rfl, fun hb => ?_⟩
        unfold Backlog.re_add at hr
        rw [if_neg (by omega)] at hr
        simp at hr
  · intro h3
    unfold handle_fixable_error
    rw [if_neg h3]
    exact ⟨rfl, rfl, rfl, rfl⟩

/-- Witness for C6: handler hit on a fresh key 1 under `["x"]`, and handler
miss under no registered handlers with the `"fail"` policy. -/
theorem C6_witness :
    (run_once ["x"] "fail" false fnFixX ((Backlog.init : Backlog Nat).add 1) 0 0).handlerCalls
      = [("x", .fixableError "x" [])] ∧
    (run_once [] "fail" false fnFixX ((Backlog.init : Backlog Nat).add 1) 0 0).raised
      = some (.fixableError "x" []) := by
  constructor
  · exact ((C6_fixable_error_routing ["x"] "fail" false fnFixX
      ((Backlog.init : Backlog Nat).add 1)
      { (Backlog.init : Backlog Nat).add 1 with queue := [] } 0 0 1 "x" []
      rfl rfl).1 (by decide)).1
  · exact ((C6_fixable_error_routing [] "fail" false fnFixX
      ((Backlog.init : Backlog Nat).add 1)
      { (Backlog.init : Backlog Nat).add 1 with queue := [] } 0 0 1 "x" []
      rfl rfl).2 (by decide)).2.2.1

/-- C10 counterexample: an assertion failure raised without a message
(empty argument tuple) is NOT normalized into a `FixableError`: `e.args[0]`
raises `IndexError`, which propagates out of the per-key step, and the
registered handler is never invoked. -/
theorem C10_counterexample :
    (run_once ["msg"] "ignore" false fnAssertBare ((Backlog.init : Backlog Nat).add 1) 0 0).raised
      = some .indexError ∧
    (run_once ["msg"] "ignore" false fnAssertBare ((Backlog.init : Backlog Nat).add 1) 0 0).handlerCalls
      = [] := by
  exact ⟨rfl, rfl⟩

/-- C10 amended: an assertion failure carrying at least one argument is
normalized into `FixableError(args[0])` (no auxiliary data) and routed
through the recoverable-failure path; an assertion failure with an empty
argument tuple instead makes `IndexError` propagate out of the per-key
step. -/
theorem C10_assertion_normalization (handlers : List String) (policy : String)
    (storage : Bool) (fn : Nat → FnOutcome) (b b1 : Backlog Nat)
    (counter i k : Nat) (args : List String)
    (h1 : b.next i = .ok (k, b1))
    (h2 : fn k = .raise (.assertionError args)) :
    run_once handlers policy storage fn b counter i
      = (match args with
        | [] =>
            { backlog := b1, counter := counter, stored := [],
              handlerCalls := [], reAddCalls := 0,
              raised := some .indexError }
        | a :: _ => handle_fixable_error handlers policy b1 counter a [] k) := by
  cases args with
  | nil => simp only [run_once, h1, h2]
  | cons a rest => simp only [run_once, h1, h2]

/-- Witness for C10 amended: a messaged assertion (`"test"`) on key 1 is
routed through `handle_fixable_error` keyed by `"test"`. -/
theorem C10_witness :
    run_once ["test"] "fail" false fnAssertMsg ((Backlog.init : Backlog Nat).add 1) 0 0
      = handle_fixable_error ["test"] "fail"
          { (Backlog.init : Backlog Nat).add 1 with queue := [] } 0 "test" [] 1 := by
  exact C10_assertion_normalization ["test"] "fail" false fnAssertMsg
    ((Backlog.init : Backlog Nat).add 1)
    { (Backlog.init : Backlog Nat).add 1 with queue := [] } 0 0 1 ["test"] rfl rfl

end Harvaestus
